import Mathlib

/-
Shallow embedding of the message-orchestration core of the OmniChat
repository (src/omni_chat/core/orchestrator.py and the tool catalog of
src/omni_chat/core/memory_db.py).

Modelling conventions:
 * Python/JSON values are modelled by the inductive `Json` (JSON numbers are
   modelled as integers; no claim depends on float behaviour).
 * A raised Python exception is modelled by `Except Exn _` with `Exn`
   carrying the exception class name and the result of `str(e)`.
 * `json.loads` is the external CPython parser; a model-response string is
   represented by its parse outcome `RawResponse = Except String Json`
   (the `String` of the `.error` case is the `JSONDecodeError` message,
   which is all the orchestrator reads from the failure).
 * Python dicts are association lists with insertion-order keys and
   last-write-wins update (`dictInsert`); dict lookup on a literal with
   duplicate keys keeps the last occurrence (`objGet`).
 * The exception messages produced by CPython primitives (AttributeError,
   TypeError texts) are fixed plausible strings; no theorem depends on them.
-/

namespace OmniChat

/-- A JSON / Python value as handled by the orchestrator. -/
inductive Json where
  | null : Json
  | bool (b : Bool) : Json
  | num (n : Int) : Json
  | str (s : String) : Json
  | arr (elems : List Json) : Json
  | obj (fields : List (String × Json)) : Json
deriving Repr

/-- A raised Python exception: class name and `str(e)`. -/
structure Exn where
  type : String
  msg : String
deriving Repr, DecidableEq

/-- Dict lookup with CPython duplicate-key semantics: the LAST binding of a
key wins (as in a dict built by successive assignment, e.g. by json.loads). -/
def objGet : List (String × Json) → String → Option Json
  | [], _ => none
  | (k, v) :: rest, key =>
    match objGet rest key with
    | some w => some w
    | none => if k == key then some v else none

/-- Python `d.get(key, default)` on a field list. -/
def objGetD (fs : List (String × Json)) (key : String) (deflt : Json) : Json :=
  (objGet fs key).getD deflt

/-- Python dict assignment `d[k] = v`: replace the binding in place if the
key is present, else append it. -/
def dictInsert (d : List (String × Json)) (k : String) (v : Json) :
    List (String × Json) :=
  if d.any (fun p => p.1 == k) then
    d.map (fun p => if p.1 == k then (k, v) else p)
  else d ++ [(k, v)]

/-- Python type name of a value (for AttributeError messages). -/
def Json.pyType : Json → String
  | .null => "NoneType"
  | .bool _ => "bool"
  | .num _ => "int"
  | .str _ => "str"
  | .arr _ => "list"
  | .obj _ => "dict"

/-- Python truthiness of a value. -/
def Json.truthy : Json → Bool
  | .null => false
  | .bool b => b
  | .num n => n != 0
  | .str s => s != ""
  | .arr xs => !xs.isEmpty
  | .obj fs => !fs.isEmpty

/-- Whether the value is hashable (usable as operand of `in` on a dict). -/
def Json.hashable : Json → Bool
  | .arr _ => false
  | .obj _ => false
  | _ => true

mutual
/-- Python `repr` of a value (dict/list rendering used by `str` on
containers); string escaping inside repr is not modelled beyond quoting. -/
def pyRepr : Json → String
  | .null => "None"
  | .bool true => "True"
  | .bool false => "False"
  | .num n => toString n
  | .str s => "\x27" ++ s ++ "\x27"
  | .arr xs => "[" ++ String.intercalate ", " (pyReprList xs) ++ "]"
  | .obj fs => "\x7b" ++ String.intercalate ", " (pyReprFields fs) ++ "\x7d"

def pyReprList : List Json → List String
  | [] => []
  | x :: xs => pyRepr x :: pyReprList xs

def pyReprFields : List (String × Json) → List String
  | [] => []
  | (k, v) :: fs => ("\x27" ++ k ++ "\x27: " ++ pyRepr v) :: pyReprFields fs
end

/-- Python `str` of a value (top-level strings print without quotes). -/
def pyStrTop : Json → String
  | .str s => s
  | v => pyRepr v

/-- Python `value.get(key, default)`: AttributeError unless the value is a
dict. -/
def pyGetD (v : Json) (key : String) (deflt : Json) : Except Exn Json :=
  match v with
  | .obj fs => .ok (objGetD fs key deflt)
  | other =>
    .error ⟨"AttributeError",
      "\x27" ++ other.pyType ++ "\x27 object has no attribute \x27get\x27"⟩

/-- ASCII lowercasing of a string, the observable behaviour of CPython
`str.lower()` on the ASCII data this system compares (same character map as
`String.toLower`, stated via `List.map` so that the kernel can evaluate
it). -/
def pyLowerStr (s : String) : String := ⟨s.data.map Char.toLower⟩

/-- Python `value.lower()`: AttributeError unless the value is a string. -/
def pyLower (v : Json) : Except Exn String :=
  match v with
  | .str s => .ok (pyLowerStr s)
  | other =>
    .error ⟨"AttributeError",
      "\x27" ++ other.pyType ++ "\x27 object has no attribute \x27lower\x27"⟩

/-- Python `v in d` where `d` is a dict with the given string keys:
TypeError on unhashable `v`; only string values can equal string keys. -/
def pyIn (v : Json) (keys : List String) : Except Exn Bool :=
  match v with
  | .str s => .ok (keys.contains s)
  | .arr _ => .error ⟨"TypeError", "unhashable type: \x27list\x27"⟩
  | .obj _ => .error ⟨"TypeError", "unhashable type: \x27dict\x27"⟩
  | _ => .ok false

/-- One row of `MemoryDB.get_tools()`: full name, description, example,
side-effect flag and owning adapter name (memory_db.py, get_tools). -/
structure ToolInfo where
  name : String
  description : String
  exampleText : String
  side_effects : Bool
  adapter : String
deriving Repr, DecidableEq

/-- The orchestrator's `_tool_mapping` dict comprehension
`{tool["name"]: tool for tool in self.tools}` (orchestrator.py, _load_tools):
a dict built by successive insertion. -/
def buildMapping (tools : List ToolInfo) : List (String × ToolInfo) :=
  tools.foldl
    (fun d t =>
      if d.any (fun p => p.1 == t.name) then
        d.map (fun p => if p.1 == t.name then (t.name, t) else p)
      else d ++ [(t.name, t)])
    []

/-- Keys of the tool mapping, in dict order. -/
def mappingKeys (tmap : List (String × ToolInfo)) : List String :=
  tmap.map (fun p => p.1)

/-- First-match lookup in the tool mapping (its keys are unique). -/
def mappingGet (tmap : List (String × ToolInfo)) (k : String) : Option ToolInfo :=
  (tmap.find? (fun p => p.1 == k)).map (fun p => p.2)

/-- The raw model-response string, represented by its `json.loads` outcome:
either the JSONDecodeError message or the parsed value. -/
def RawResponse : Type := Except String Json

/-- The dict returned by `Orchestrator._handle_model_response`: either
`.reply` (fields action/text) or `.toolCall` (fields action/tool/params/
confirm). The `text`, `tool`, `params` and `confirm` slots hold whatever
values the model supplied, not necessarily strings. -/
inductive HandlerResult where
  | reply (text : Json) : HandlerResult
  | toolCall (tool : Json) (params : Json) (confirm : Json) : HandlerResult
deriving Repr

/-- Orchestrator._handle_model_response (orchestrator.py lines 132-175),
applied to the parse outcome of the model's response string. Python
exceptions raised inside it (e.g. AttributeError when the parsed value is
not an object, or when the `type` field is not a string) surface as
`.error`. -/
def handleModelResponse (tmap : List (String × ToolInfo)) (raw : RawResponse) :
    Except Exn HandlerResult :=
  match raw with
  | .error emsg =>
    .ok (.reply (.str ("Invalid JSON response from model: " ++ emsg ++
      ". Please try again.")))
  | .ok data =>
    match pyGetD data "type" (.str "") with
    | .error e => .error e
    | .ok tval =>
      match pyLower tval with
      | .error e => .error e
      | .ok rtype =>
        if rtype == "reply" then
          match pyGetD data "text" (.str "") with
          | .error e => .error e
          | .ok t => .ok (.reply t)
        else if rtype == "tool_call" then
          match pyGetD data "tool" (.str "") with
          | .error e => .error e
          | .ok toolv =>
            if toolv.truthy = false then
              .ok (.reply (.str "Error: No tool specified in tool call"))
            else
              match pyIn toolv (mappingKeys tmap) with
              | .error e => .error e
              | .ok true =>
                match pyGetD data "params" (.obj []),
                      pyGetD data "confirm" (.bool false) with
                | .ok ps, .ok cf => .ok (.toolCall toolv ps cf)
                | .error e, _ => .error e
                | _, .error e => .error e
              | .ok false =>
                .ok (.reply (.str ("Error: Unknown tool \x27" ++
                  pyStrTop toolv ++ "\x27. Available tools: " ++
                  String.intercalate ", " (mappingKeys tmap))))
        else
          .ok (.reply (.str ("Error: Invalid response type \x27" ++ rtype ++
            "\x27. Expected \x27reply\x27 or \x27tool_call\x27.")))

/-- Kind of a declared parameter in `inspect.signature(method).parameters`.
Positional-or-keyword and keyword-only parameters behave identically in the
dispatcher's binding loop and are both modelled as `.normal`. -/
inductive ParamKind where
  | normal : ParamKind
  | varPositional : ParamKind
  | varKeyword : ParamKind
deriving Repr, DecidableEq

/-- One declared parameter of an operation: name, kind, and declared
default (`none` models `inspect.Parameter.empty`). -/
structure Param where
  name : String
  kind : ParamKind
  default : Option Json
deriving Repr

/-- Python `param_name in params` for an arbitrary `params` value:
key membership on dicts, substring test on strings, element membership on
lists, TypeError on non-iterables. -/
def pyContains (key : String) (params : Json) : Except Exn Bool :=
  match params with
  | .obj fs => .ok (fs.any (fun p => p.1 == key))
  | .str s => .ok (if key == "" then true else (s.splitOn key).length > 1)
  | .arr xs =>
    .ok (xs.any (fun x => match x with | .str k => k == key | _ => false))
  | other =>
    .error ⟨"TypeError",
      "argument of type \x27" ++ other.pyType ++ "\x27 is not iterable"⟩

/-- Python `params[param_name]` with a string key: dict lookup (KeyError if
absent), TypeError on any non-dict. -/
def pySubscript (params : Json) (key : String) : Except Exn Json :=
  match params with
  | .obj fs =>
    match objGet fs key with
    | some v => .ok v
    | none => .error ⟨"KeyError", "\x27" ++ key ++ "\x27"⟩
  | .str _ => .error ⟨"TypeError", "string indices must be integers"⟩
  | .arr _ =>
    .error ⟨"TypeError", "list indices must be integers or slices, not str"⟩
  | other =>
    .error ⟨"TypeError",
      "\x27" ++ other.pyType ++ "\x27 object is not subscriptable"⟩

/-- Python `valid_params.update(params)`: merge a dict into the binding;
a non-dict argument raises (coarsely modelled as one TypeError — CPython
distinguishes several messages but the orchestrator never reads them). -/
def pyUpdate (d : List (String × Json)) (params : Json) :
    Except Exn (List (String × Json)) :=
  match params with
  | .obj fs => .ok (fs.foldl (fun acc kv => dictInsert acc kv.1 kv.2) d)
  | other =>
    .error ⟨"TypeError",
      "cannot convert \x27" ++ other.pyType ++ "\x27 object to a dictionary"⟩

/-- The parameter-validation loop of `Orchestrator._execute_tool`
(orchestrator.py lines 208-219), iterating over the declared parameters in
order. The outer `Except Exn` is a raised Python exception (caught by the
dispatcher's `try`); the inner `Except String` carries the name of the first
missing required parameter (the code's early `return` of a
"Missing required parameter" error dict). -/
def bindLoop (sig : List Param) (params : Json) (acc : List (String × Json)) :
    Except Exn (Except String (List (String × Json))) :=
  match sig with
  | [] => .ok (.ok acc)
  | p :: rest =>
    match pyContains p.name params with
    | .error e => .error e
    | .ok true =>
      match pySubscript params p.name with
      | .error e => .error e
      | .ok v => bindLoop rest params (dictInsert acc p.name v)
    | .ok false =>
      match p.default with
      | some d => bindLoop rest params (dictInsert acc p.name d)
      | none =>
        match p.kind with
        | .varPositional => bindLoop rest params acc
        | .varKeyword =>
          match pyUpdate acc params with
          | .error e => .error e
          | .ok acc' => .ok (.ok acc')
        | .normal => .ok (.error p.name)

/-- A tool operation: its declared signature and its invocation behaviour,
`run` being the effect of `method(**valid_params)` (which may raise). -/
structure Operation where
  params : List Param
  run : List (String × Json) → Except Exn Json

/-- An instantiated adapter: its methods by short name (`hasattr`/`getattr`
resolution). -/
structure Adapter where
  methods : List (String × Operation)

/-- An adapter class as returned by `_load_adapter_class`: calling it
(`adapter_class()`) constructs an instance and may raise. -/
structure AdapterClass where
  construct : Except Exn Adapter

/-- The structured error built by the dispatcher's `except` clause
(orchestrator.py lines 225-231). -/
def fourFieldError (e : Exn) (tool params : Json) : Json :=
  .obj [("error", .str e.msg), ("exception_type", .str e.type),
        ("tool", tool), ("params", params)]

/-- A tool entry as formatted for the prompt by `build_prompt`
(orchestrator.py lines 42-51); `side_effects` is always present in rows
produced by `MemoryDB.get_tools`. -/
structure FormattedTool where
  name : String
  description : String
  exampleText : String
  side_effects : Bool
deriving Repr, DecidableEq

/-- A history message as formatted for the prompt:
`{"role": msg["role"].lower(), "text": str(msg["content"])}`. -/
structure PromptMsg where
  role : String
  text : String
deriving Repr, DecidableEq

/-- The prompt dict built by `build_prompt` (orchestrator.py lines 7-63)
with `system = None` and `examples = None`, as the orchestrator always calls
it. The orchestrator passes `json.dumps` of this structure to the model
client; the serialisation is injective on this shape, so the model client is
modelled as consuming the structure itself. -/
structure Prompt where
  system : String
  tools : List FormattedTool
  messages : List PromptMsg
  current_time : String
deriving Repr, DecidableEq

/-- A conversation message handed to `process_message`: a dict with `role`
and `content` keys (both strings, as produced by
`MemoryDB.get_recent_messages`). -/
structure Message where
  role : String
  content : String
deriving Repr, DecidableEq

/-- The default system instruction of `build_prompt` (orchestrator.py
lines 26-39). -/
def defaultSystem : String :=
  "You are a helpful assistant with access to tools. \n" ++
  "        Always respond with valid JSON in one of these formats:\n" ++
  "        \n" ++
  "        For a normal response:\n" ++
  "        \x7b\"type\": \"reply\", \"text\": \"Your response here\"\x7d\n" ++
  "        \n" ++
  "        For a tool call:\n" ++
  "        \x7b\n" ++
  "            \"type\": \"tool_call\",\n" ++
  "            \"tool\": \"adapter.tool_name\",\n" ++
  "            \"params\": \x7b\"param1\": value1, \"param2\": value2\x7d,\n" ++
  "            \"confirm\": false\n" ++
  "        \x7d\n" ++
  "        "

/-- `build_prompt(messages, tools)` with the default system instruction and
no examples; `timeStr` stands for `datetime.now().isoformat()`. -/
def buildPrompt (messages : List Message) (tools : List ToolInfo)
    (timeStr : String) : Prompt :=
  { system := defaultSystem
    tools := tools.map (fun t =>
      ⟨t.name, t.description, t.exampleText, t.side_effects⟩)
    messages := messages.map (fun m => ⟨m.role.toLower, m.content⟩)
    current_time := timeStr }

/-- External collaborators of one orchestrator run: the model client
(`generate_response`, indexed by call number, receiving the built prompt and
either returning a response string — represented by its parse outcome — or
raising), the adapter-class loader `_load_adapter_class` (which may return
no class, or raise e.g. on a database failure), and the wall clock read by
`build_prompt`. -/
structure Env where
  generate : Nat → Prompt → Except Exn RawResponse
  loadClass : String → Except Exn (Option AdapterClass)
  now : Nat → String

/-- The orchestrator's `_tool_cache` dict of instantiated adapters. -/
abbrev Cache := List (String × Adapter)

/-- Dict lookup in the adapter cache (keys are unique). -/
def cacheGet (cache : Cache) (k : String) : Option Adapter :=
  (cache.find? (fun p => p.1 == k)).map (fun p => p.2)

/-- Dict assignment in the adapter cache. -/
def cacheInsert (cache : Cache) (k : String) (v : Adapter) : Cache :=
  if cache.any (fun p => p.1 == k) then
    cache.map (fun p => if p.1 == k then (k, v) else p)
  else cache ++ [(k, v)]

/-- Placeholder `ToolInfo` for the (unreachable) lookup miss after a
successful membership test. -/
def dummyTool : ToolInfo := ⟨"", "", "", false, ""⟩

/-- Python `tool_name.split(\x27.\x27)[-1]`: the text after the last dot
(the whole string when there is no dot), computed by a character fold. -/
def methodNameOf (s : String) : String :=
  ⟨s.data.foldl (fun acc c => if c = '.' then [] else acc ++ [c]) []⟩

/-- Method resolution, parameter binding and invocation for a resolved
adapter instance (orchestrator.py lines 195-223); the `Except Exn` of the
second component is a raised exception, to be converted by the dispatcher's
`except` clause. -/
def executeWith (cache : Cache) (adapterName : String) (adapter : Adapter)
    (s : String) (params : Json) : Cache × Except Exn Json :=
  match (adapter.methods.find? (fun p => p.1 == methodNameOf s)).map
      (fun p => p.2) with
  | none =>
    (cache, .ok (.obj [("error", .str ("Adapter \x27" ++ adapterName ++
      "\x27 has no method \x27" ++ methodNameOf s ++ "\x27"))]))
  | some op =>
    match bindLoop op.params params [] with
    | .error e => (cache, .error e)
    | .ok (.error missing) =>
      (cache, .ok (.obj [("error",
        .str ("Missing required parameter: " ++ missing))]))
    | .ok (.ok kwargs) =>
      match op.run kwargs with
      | .error e => (cache, .error e)
      | .ok v => (cache, .ok v)

/-- The body of the dispatcher's `try` block (orchestrator.py lines
184-223): adapter resolution through the cache, with lazy construction.
A raise after the adapter was cached keeps the cache update, so the updated
cache is returned alongside the outcome. -/
def executeTry (env : Env) (cache : Cache) (adapterName : String)
    (s : String) (params : Json) : Cache × Except Exn Json :=
  match cacheGet cache adapterName with
  | some inst => executeWith cache adapterName inst s params
  | none =>
    match env.loadClass adapterName with
    | .error e => (cache, .error e)
    | .ok none =>
      (cache, .ok (.obj [("error",
        .str ("Could not load adapter: " ++ adapterName))]))
    | .ok (some cls) =>
      match cls.construct with
      | .error e => (cache, .error e)
      | .ok inst =>
        executeWith (cacheInsert cache adapterName inst) adapterName inst
          s params

/-- Orchestrator._execute_tool (orchestrator.py lines 177-231). The result
is `.error` only when the pre-`try` membership test itself raises (an
unhashable `tool_name`); every exception inside the `try` block is caught
and converted to `fourFieldError`. -/
def executeTool (env : Env) (tmap : List (String × ToolInfo)) (cache : Cache)
    (tool : Json) (params : Json) : Except Exn (Cache × Json) :=
  match tool with
  | .str s =>
    if (mappingKeys tmap).contains s then
      let info := (mappingGet tmap s).getD dummyTool
      let pr := executeTry env cache info.adapter s params
      .ok (pr.1, match pr.2 with
        | .error e => fourFieldError e tool params
        | .ok v => v)
    else
      .ok (cache, .obj [("error", .str ("Unknown tool: " ++ pyStrTop tool))])
  | .arr _ => .error ⟨"TypeError", "unhashable type: \x27list\x27"⟩
  | .obj _ => .error ⟨"TypeError", "unhashable type: \x27dict\x27"⟩
  | t => .ok (cache, .obj [("error", .str ("Unknown tool: " ++ pyStrTop t))])

/-- `response["text"]` on the interpreter's result dict: a tool-call dict
has no `text` key, so Python raises `KeyError` whose `str` is the quoted
key. -/
def indexText (r : HandlerResult) : Except Exn Json :=
  match r with
  | .reply t => .ok t
  | .toolCall _ _ _ => .error ⟨"KeyError", "\x27text\x27"⟩

/-- State threaded through the `while` loop of `process_message`: the
(caller-owned, mutated in place) context list, the adapter cache, the log of
dispatcher invocations `(tool, params)`, and the counts of model-client and
interpreter calls made so far. -/
structure LoopSt where
  ctx : List Message
  cache : Cache
  executed : List (Json × Json)
  modelCalls : Nat
  interpCalls : Nat

/-- Outcome of the code inside `process_message`'s `try` block: `.error` is
an uncaught Python exception about to be converted at the outer boundary. -/
structure LoopOut where
  res : Except Exn Json
  st : LoopSt

/-- The `while response["action"] == "tool_call" and count < 3` loop of
`process_message` (orchestrator.py lines 107-127), with `fuel = 3 - count`.
Each iteration dispatches the tool, appends the synthetic assistant/system
messages to the (caller-owned) context, re-prompts the model and
re-interprets; on loop exit the code returns `response["text"]`. -/
def loopRun (env : Env) (tools : List ToolInfo)
    (tmap : List (String × ToolInfo)) :
    Nat → HandlerResult → LoopSt → LoopOut
  | 0, resp, st => ⟨indexText resp, st⟩
  | _ + 1, .reply t, st => ⟨indexText (.reply t), st⟩
  | fuel + 1, .toolCall tool params _confirm, st =>
    let st1 : LoopSt := { st with executed := st.executed ++ [(tool, params)] }
    match executeTool env tmap st.cache tool params with
    | .error e => ⟨.error e, st1⟩
    | .ok (cache', toolResult) =>
      let ctx' := st.ctx ++
        [⟨"assistant", "Called " ++ pyStrTop tool ++ " with params: " ++
          pyStrTop params⟩,
         ⟨"system", pyStrTop toolResult⟩]
      let st2 : LoopSt := { st1 with ctx := ctx', cache := cache' }
      match env.generate st2.modelCalls (buildPrompt ctx' tools
          (env.now st2.modelCalls)) with
      | .error e => ⟨.error e, { st2 with modelCalls := st2.modelCalls + 1 }⟩
      | .ok raw =>
        let st3 : LoopSt := { st2 with modelCalls := st2.modelCalls + 1,
                                       interpCalls := st2.interpCalls + 1 }
        match handleModelResponse tmap raw with
        | .error e => ⟨.error e, st3⟩
        | .ok resp' => loopRun env tools tmap fuel resp' st3

/-- The interior of `process_message`'s `try` block, entered with the parse
outcome of the first model response. -/
def innerRun (env : Env) (tools : List ToolInfo)
    (tmap : List (String × ToolInfo)) (raw : RawResponse)
    (ctx : List Message) (cache0 : Cache) : LoopOut :=
  match handleModelResponse tmap raw with
  | .error e => ⟨.error e, ⟨ctx, cache0, [], 1, 1⟩⟩
  | .ok resp => loopRun env tools tmap 3 resp ⟨ctx, cache0, [], 1, 1⟩

/-- Observable outcome of one `process_message` call: the returned value
(`.error` = an exception propagated to the caller), the caller's context
list as it stands after the call, the dispatcher invocations performed, and
the number of model-client and interpreter calls made. -/
structure RunResult where
  result : Except Exn Json
  finalContext : List Message
  executedTools : List (Json × Json)
  modelCalls : Nat
  interpCalls : Nat
  cache : Cache

/-- Orchestrator.process_message (orchestrator.py lines 87-130). The empty
context is rejected up front; the first prompt build and model call happen
BEFORE the `try` block; everything from the first interpretation onwards
runs inside it, and an exception there is rendered as
"Error processing request: <str(e)>". -/
def processMessage (env : Env) (tools : List ToolInfo) (cache0 : Cache)
    (ctx : List Message) : RunResult :=
  if ctx.isEmpty then
    ⟨.ok (.str "Error: No context provided"), ctx, [], 0, 0, cache0⟩
  else
    let tmap := buildMapping tools
    match env.generate 0 (buildPrompt ctx tools (env.now 0)) with
    | .error e => ⟨.error e, ctx, [], 1, 0, cache0⟩
    | .ok raw =>
      let out := innerRun env tools tmap raw ctx cache0
      ⟨(match out.res with
        | .error e => .ok (.str ("Error processing request: " ++ e.msg))
        | .ok v => .ok v),
       out.st.ctx, out.st.executed, out.st.modelCalls, out.st.interpCalls,
       out.st.cache⟩

/-- One row of the `tools` table of memory_db.py (`id` is the AUTOINCREMENT
primary key, `full_name` carries a UNIQUE constraint). -/
structure ToolRow where
  id : Nat
  adapter_id : Int
  name : String
  full_name : String
  short_desc : String
  exampleText : String
  side_effects : Bool
deriving Repr, DecidableEq

/-- The `tools` table: rows in insertion order plus the AUTOINCREMENT
sequence value (the largest id ever assigned). -/
structure ToolsTable where
  rows : List ToolRow
  seq : Nat
deriving Repr, DecidableEq

/-- MemoryDB.register_tool (memory_db.py lines 235-248): resolve the
optional full name, `INSERT OR IGNORE` against the UNIQUE `full_name`
column, then `SELECT id ... WHERE full_name = ?` and return
`fetchone()[0]` (`none` models an impossible empty fetch). -/
def registerTool (t : ToolsTable) (adapter_id : Int)
    (name short_desc exampleText : String) (side_effects : Bool)
    (full_name : Option String) : ToolsTable × Option Nat :=
  let fn := match full_name with
    | none => toString adapter_id ++ "." ++ name
    | some f => f
  let t' :=
    if t.rows.any (fun r => r.full_name == fn) then t
    else ⟨t.rows ++ [⟨t.seq + 1, adapter_id, name, fn, short_desc,
      exampleText, side_effects⟩], t.seq + 1⟩
  (t', (t'.rows.find? (fun r => r.full_name == fn)).map (fun r => r.id))

/-! Helper lemmas about the Python-dict model. -/

theorem objGet_nil (k : String) : objGet [] k = none := rfl

theorem objGet_cons (k0 : String) (v0 : Json) (rest : List (String × Json))
    (k : String) :
    objGet ((k0, v0) :: rest) k =
      (match objGet rest k with
       | some w => some w
       | none => if k0 == k then some v0 else none) := rfl

theorem any_eq_isSome (fs : List (String × Json)) (k : String) :
    (fs.any (fun p => p.1 == k)) = (objGet fs k).isSome := by
  induction fs with
  | nil => rfl
  | cons p rest ih =>
    obtain ⟨k0, v0⟩ := p
    rw [List.any_cons, objGet_cons, ih]
    cases h : objGet rest k with
    | some w => simp
    | none => by_cases hk : (k0 == k) = true <;> simp [hk]

theorem map_noKey (d : List (String × Json)) (k : String) (v : Json)
    (h : ∀ p ∈ d, (p.1 == k) = false) :
    d.map (fun p => if p.1 == k then (k, v) else p) = d := by
  induction d with
  | nil => rfl
  | cons p rest ih =>
    have hp := h p (List.mem_cons_self p rest)
    have ht := ih (fun q hq => h q (List.mem_cons_of_mem _ hq))
    rw [List.map_cons, ht, if_neg (by simp [hp])]

theorem objGet_append_single (d : List (String × Json)) (k : String)
    (v : Json) : objGet (d ++ [(k, v)]) k = some v := by
  induction d with
  | nil => simp [objGet]
  | cons p rest ih =>
    obtain ⟨k0, v0⟩ := p
    rw [List.cons_append, objGet_cons, ih]

theorem objGet_append_single_ne (d : List (String × Json)) (k k' : String)
    (v : Json) (h : (k == k') = false) :
    objGet (d ++ [(k, v)]) k' = objGet d k' := by
  induction d with
  | nil => simp [objGet, h]
  | cons p rest ih =>
    obtain ⟨k0, v0⟩ := p
    rw [List.cons_append, objGet_cons, ih, objGet_cons]

theorem objGet_cons_pair (p : String × Json) (rest : List (String × Json))
    (k : String) :
    objGet (p :: rest) k =
      (match objGet rest k with
       | some w => some w
       | none => if p.1 == k then some p.2 else none) := by
  obtain ⟨a, b⟩ := p
  rfl

theorem objGet_map_replace (d : List (String × Json)) (k : String) (v : Json)
    (hmem : d.any (fun p => p.1 == k) = true) :
    objGet (d.map (fun p => if p.1 == k then (k, v) else p)) k = some v := by
  induction d with
  | nil => simp at hmem
  | cons p rest ih =>
    obtain ⟨k0, v0⟩ := p
    rw [List.map_cons, objGet_cons_pair]
    by_cases hrest : rest.any (fun p => p.1 == k) = true
    · rw [ih hrest]
    · have hrest0 : rest.any (fun p => p.1 == k) = false :=
        Bool.not_eq_true _ ▸ eq_false_of_ne_true hrest
      have hnone : objGet rest k = none := by
        have h := any_eq_isSome rest k
        rw [hrest0] at h
        exact Option.not_isSome_iff_eq_none.mp (by rw [← h]; simp)
      have h0 : (k0 == k) = true := by
        have := hmem
        simp only [List.any_cons, hrest0, Bool.or_false] at this
        exact this
      have hmap : rest.map (fun p => if p.1 == k then (k, v) else p) = rest :=
        map_noKey rest k v (by
          intro q hq
          have := List.any_eq_false.mp hrest0 q hq
          simpa using this)
      rw [hmap, hnone, h0]
      simp

theorem objGet_map_replace_ne (d : List (String × Json)) (k k' : String)
    (v : Json) (hne : (k == k') = false) :
    objGet (d.map (fun p => if p.1 == k then (k, v) else p)) k' =
      objGet d k' := by
  induction d with
  | nil => rfl
  | cons p rest ih =>
    obtain ⟨k0, v0⟩ := p
    rw [List.map_cons, objGet_cons_pair, ih, objGet_cons_pair]
    cases objGet rest k' with
    | some w => rfl
    | none =>
      by_cases h0 : (k0 == k) = true
      · have hk0 : k0 = k := by simpa using h0
        subst hk0
        simp [h0, hne]
      · have h0f : (k0 == k) = false :=
          Bool.not_eq_true _ ▸ eq_false_of_ne_true h0
        simp [h0f]

theorem objGet_dictInsert_self (d : List (String × Json)) (k : String)
    (v : Json) : objGet (dictInsert d k v) k = some v := by
  unfold dictInsert
  by_cases h : d.any (fun p => p.1 == k) = true
  · rw [if_pos h]
    exact objGet_map_replace d k v h
  · rw [if_neg h]
    exact objGet_append_single d k v

theorem objGet_dictInsert_ne (d : List (String × Json)) (k k' : String)
    (v : Json) (h : (k == k') = false) :
    objGet (dictInsert d k v) k' = objGet d k' := by
  unfold dictInsert
  by_cases hmem : d.any (fun p => p.1 == k) = true
  · rw [if_pos hmem]
    exact objGet_map_replace_ne d k k' v h
  · rw [if_neg hmem]
    exact objGet_append_single_ne d k k' v h

theorem objGet_foldl_insert (fs : List (String × Json))
    (acc : List (String × Json)) (k : String) :
    objGet (fs.foldl (fun a kv => dictInsert a kv.1 kv.2) acc) k =
      (match objGet fs k with
       | some v => some v
       | none => objGet acc k) := by
  induction fs generalizing acc with
  | nil => rfl
  | cons p rest ih =>
    obtain ⟨k0, v0⟩ := p
    rw [List.foldl_cons, ih, objGet_cons_pair]
    cases objGet rest k with
    | some w => rfl
    | none =>
      by_cases h0 : (k0 == k) = true
      · have hk0 : k0 = k := by simpa using h0
        subst hk0
        rw [objGet_dictInsert_self]
        simp
      · have h0f : (k0 == k) = false :=
          Bool.not_eq_true _ ▸ eq_false_of_ne_true h0
        rw [objGet_dictInsert_ne _ _ _ _ h0f]
        simp [h0f]

/-! Helper lemmas about the dispatcher's parameter binding. -/

theorem objGet_none_of_any_false {pf : List (String × Json)} {k : String}
    (h : pf.any (fun p => p.1 == k) = false) : objGet pf k = none := by
  have h2 := any_eq_isSome pf k
  rw [h] at h2
  exact Option.not_isSome_iff_eq_none.mp (by rw [← h2]; simp)

theorem any_true_of_objGet_some {pf : List (String × Json)} {k : String}
    {v : Json} (h : objGet pf k = some v) :
    pf.any (fun p => p.1 == k) = true := by
  rw [any_eq_isSome, h]
  rfl

/-- A binding already in the accumulator survives the rest of the binding
loop, provided it either agrees with the supplied params (so re-insertion
and the catch-all `update` rewrite the same value) or its key is neither
supplied nor a later declared name. -/
theorem bind_preserve (pf : List (String × Json)) :
    ∀ (rest : List Param) (acc kwargs : List (String × Json)) (k : String)
      (v : Json),
    bindLoop rest (.obj pf) acc = .ok (.ok kwargs) →
    objGet acc k = some v →
    (objGet pf k = some v ∨
      (objGet pf k = none ∧ ∀ q ∈ rest, (q.name == k) = false)) →
    objGet kwargs k = some v := by
  intro rest
  induction rest with
  | nil =>
    intro acc kwargs k v hb hacc _
    simp only [bindLoop] at hb
    cases hb
    exact hacc
  | cons p rest ih =>
    intro acc kwargs k v hb hacc hside
    simp only [bindLoop, pyContains] at hb
    cases hany : pf.any (fun q => q.1 == p.name) with
    | true =>
      rw [hany] at hb
      simp only [pySubscript] at hb
      cases hg : objGet pf p.name with
      | none =>
        rw [hg] at hb
        cases hb
      | some w =>
        rw [hg] at hb
        by_cases hk : (p.name == k) = true
        · have hpk : p.name = k := by simpa using hk
          subst hpk
          rcases hside with hv | ⟨hnone, _⟩
          · have hw : w = v := by rw [hg] at hv; cases hv; rfl
            subst hw
            exact ih _ _ _ _ hb
              (by rw [objGet_dictInsert_self]) (Or.inl hv)
          · rw [hg] at hnone; cases hnone
        · have hkf : (p.name == k) = false :=
            Bool.not_eq_true _ ▸ eq_false_of_ne_true hk
          refine ih _ _ _ _ hb ?_ ?_
          · rw [objGet_dictInsert_ne _ _ _ _ hkf]; exact hacc
          · rcases hside with hv | ⟨hnone, hrest⟩
            · exact Or.inl hv
            · exact Or.inr ⟨hnone,
                fun q hq => hrest q (List.mem_cons_of_mem _ hq)⟩
    | false =>
      rw [hany] at hb
      cases hd : p.default with
      | some d =>
        rw [hd] at hb
        by_cases hk : (p.name == k) = true
        · have hpk : p.name = k := by simpa using hk
          subst hpk
          rcases hside with hv | ⟨_, hrest⟩
          · have := any_true_of_objGet_some hv
            rw [this] at hany; cases hany
          · have := hrest p (List.mem_cons_self _ _)
            rw [hk] at this; cases this
        · have hkf : (p.name == k) = false :=
            Bool.not_eq_true _ ▸ eq_false_of_ne_true hk
          refine ih _ _ _ _ hb ?_ ?_
          · rw [objGet_dictInsert_ne _ _ _ _ hkf]; exact hacc
          · rcases hside with hv | ⟨hnone, hrest⟩
            · exact Or.inl hv
            · exact Or.inr ⟨hnone,
                fun q hq => hrest q (List.mem_cons_of_mem _ hq)⟩
      | none =>
        rw [hd] at hb
        cases hkind : p.kind with
        | varPositional =>
          rw [hkind] at hb
          refine ih _ _ _ _ hb hacc ?_
          rcases hside with hv | ⟨hnone, hrest⟩
          · exact Or.inl hv
          · exact Or.inr ⟨hnone,
              fun q hq => hrest q (List.mem_cons_of_mem _ hq)⟩
        | varKeyword =>
          rw [hkind] at hb
          simp only [pyUpdate] at hb
          cases hb
          rw [objGet_foldl_insert]
          rcases hside with hv | ⟨hnone, _⟩
          · rw [hv]
          · rw [hnone]
            exact hacc
        | normal =>
          rw [hkind] at hb
          cases hb

/-- If some declared parameter named `k` occurs in the signature and `k` is
supplied in params, a successful binding maps `k` to the supplied value. -/
theorem bind_supplied_aux (pf : List (String × Json)) :
    ∀ (sig : List Param) (acc kwargs : List (String × Json)) (k : String)
      (v : Json),
    bindLoop sig (.obj pf) acc = .ok (.ok kwargs) →
    (∃ p ∈ sig, p.name = k) →
    objGet pf k = some v →
    objGet kwargs k = some v := by
  intro sig
  induction sig with
  | nil =>
    rintro acc kwargs k v _ ⟨p, hp, _⟩ _
    cases hp
  | cons p rest ih =>
    rintro acc kwargs k v hb ⟨q, hq, hqname⟩ hv
    by_cases hpk : p.name = k
    · simp only [bindLoop, pyContains] at hb
      have hany : pf.any (fun r => r.1 == p.name) = true := by
        rw [hpk]; exact any_true_of_objGet_some hv
      rw [hany] at hb
      simp only [pySubscript] at hb
      have hg : objGet pf p.name = some v := by rw [hpk]; exact hv
      rw [hg] at hb
      refine bind_preserve pf rest _ _ k v hb ?_ (Or.inl hv)
      rw [← hpk, objGet_dictInsert_self]
    · have hq' : q ∈ rest := by
        rcases List.mem_cons.mp hq with h | h
        · exact absurd (h ▸ hqname) hpk
        · exact h
      simp only [bindLoop, pyContains] at hb
      cases hany : pf.any (fun r => r.1 == p.name) with
      | true =>
        rw [hany] at hb
        simp only [pySubscript] at hb
        cases hg : objGet pf p.name with
        | none => rw [hg] at hb; cases hb
        | some w =>
          rw [hg] at hb
          exact ih _ _ _ _ hb ⟨q, hq', hqname⟩ hv
      | false =>
        rw [hany] at hb
        cases hd : p.default with
        | some d =>
          rw [hd] at hb
          exact ih _ _ _ _ hb ⟨q, hq', hqname⟩ hv
        | none =>
          rw [hd] at hb
          cases hkind : p.kind with
          | varPositional =>
            rw [hkind] at hb
            exact ih _ _ _ _ hb ⟨q, hq', hqname⟩ hv
          | varKeyword =>
            rw [hkind] at hb
            simp only [pyUpdate] at hb
            cases hb
            rw [objGet_foldl_insert, hv]
          | normal => rw [hkind] at hb; cases hb

/-- A declared parameter that is unsupplied but has a declared default is
bound to that default by a successful binding, provided no catch-all slot
precedes it and its name is not declared twice. -/
theorem bind_default_aux (pf : List (String × Json)) :
    ∀ (pre : List Param) (p : Param) (post : List Param)
      (acc kwargs : List (String × Json)) (d : Json),
    bindLoop (pre ++ p :: post) (.obj pf) acc = .ok (.ok kwargs) →
    (∀ q ∈ pre, q.kind ≠ ParamKind.varKeyword) →
    (∀ q ∈ pre ++ post, (q.name == p.name) = false) →
    objGet pf p.name = none →
    p.default = some d →
    objGet kwargs p.name = some d := by
  intro pre
  induction pre with
  | nil =>
    intro p post acc kwargs d hb _ hnd hns hd
    simp only [List.nil_append, bindLoop, pyContains] at hb
    have hany : pf.any (fun r => r.1 == p.name) = false := by
      rw [any_eq_isSome, hns]; rfl
    rw [hany, hd] at hb
    refine bind_preserve pf post _ _ p.name d hb ?_ ?_
    · rw [objGet_dictInsert_self]
    · exact Or.inr ⟨hns, fun q hq => hnd q (by simpa using hq)⟩
  | cons q pre ih =>
    intro p post acc kwargs d hb hkw hnd hns hd
    simp only [List.cons_append, bindLoop, pyContains] at hb
    have hkw' : ∀ r ∈ pre, r.kind ≠ ParamKind.varKeyword :=
      fun r hr => hkw r (List.mem_cons_of_mem _ hr)
    have hnd' : ∀ r ∈ pre ++ post, (r.name == p.name) = false :=
      fun r hr => hnd r (by
        rcases List.mem_append.mp hr with h | h
        · exact List.mem_append.mpr (Or.inl (List.mem_cons_of_mem _ h))
        · exact List.mem_append.mpr (Or.inr h))
    cases hany : pf.any (fun r => r.1 == q.name) with
    | true =>
      rw [hany] at hb
      simp only [pySubscript] at hb
      cases hg : objGet pf q.name with
      | none => rw [hg] at hb; cases hb
      | some w =>
        rw [hg] at hb
        exact ih p post _ _ d hb hkw' hnd' hns hd
    | false =>
      rw [hany] at hb
      cases hqd : q.default with
      | some d0 =>
        rw [hqd] at hb
        exact ih p post _ _ d hb hkw' hnd' hns hd
      | none =>
        rw [hqd] at hb
        cases hqk : q.kind with
        | varPositional =>
          rw [hqk] at hb
          exact ih p post _ _ d hb hkw' hnd' hns hd
        | varKeyword =>
          exact absurd hqk (hkw q (List.mem_cons_self _ _))
        | normal => rw [hqk] at hb; cases hb

/-- If an unsupplied, default-free, normal declared parameter exists and no
catch-all slot precedes it, the binding loop stops with the name of such a
parameter (the first one encountered). -/
theorem bind_missing_aux (pf : List (String × Json)) :
    ∀ (pre : List Param) (p : Param) (post : List Param)
      (acc : List (String × Json)),
    p.kind = ParamKind.normal →
    p.default = none →
    objGet pf p.name = none →
    (∀ q ∈ pre, q.kind ≠ ParamKind.varKeyword) →
    ∃ n, bindLoop (pre ++ p :: post) (.obj pf) acc = .ok (.error n) ∧
      ∃ q ∈ pre ++ p :: post, q.name = n ∧ q.kind = ParamKind.normal ∧
        q.default = none ∧ objGet pf q.name = none := by
  intro pre
  induction pre with
  | nil =>
    intro p post acc hk hd hns _
    have hany : pf.any (fun r => r.1 == p.name) = false := by
      rw [any_eq_isSome, hns]; rfl
    refine ⟨p.name, ?_, p, List.mem_cons_self _ _, rfl, hk, hd, hns⟩
    simp only [List.nil_append, bindLoop, pyContains, hany, hd, hk]
  | cons q pre ih =>
    intro p post acc hk hd hns hkw
    have hkw' : ∀ r ∈ pre, r.kind ≠ ParamKind.varKeyword :=
      fun r hr => hkw r (List.mem_cons_of_mem _ hr)
    cases hany : pf.any (fun r => r.1 == q.name) with
    | true =>
      have hg : ∃ w, objGet pf q.name = some w := by
        have := any_eq_isSome pf q.name
        rw [hany] at this
        exact Option.isSome_iff_exists.mp this.symm
      obtain ⟨w, hw⟩ := hg
      obtain ⟨n, hbind, hq⟩ :=
        ih p post (dictInsert acc q.name w) hk hd hns hkw'
      refine ⟨n, ?_, ?_⟩
      · simp only [List.cons_append, bindLoop, pyContains, hany,
          pySubscript, hw]
        exact hbind
      · obtain ⟨r, hr, hrest⟩ := hq
        exact ⟨r, List.mem_cons_of_mem _ hr, hrest⟩
    | false =>
      cases hqd : q.default with
      | some d0 =>
        obtain ⟨n, hbind, hq⟩ :=
          ih p post (dictInsert acc q.name d0) hk hd hns hkw'
        refine ⟨n, ?_, ?_⟩
        · simp only [List.cons_append, bindLoop, pyContains, hany, hqd]
          exact hbind
        · obtain ⟨r, hr, hrest⟩ := hq
          exact ⟨r, List.mem_cons_of_mem _ hr, hrest⟩
      | none =>
        cases hqk : q.kind with
        | varPositional =>
          obtain ⟨n, hbind, hq⟩ := ih p post acc hk hd hns hkw'
          refine ⟨n, ?_, ?_⟩
          · simp only [List.cons_append, bindLoop, pyContains, hany, hqd,
              hqk]
            exact hbind
          · obtain ⟨r, hr, hrest⟩ := hq
            exact ⟨r, List.mem_cons_of_mem _ hr, hrest⟩
        | varKeyword =>
          exact absurd hqk (hkw q (List.mem_cons_self _ _))
        | normal =>
          refine ⟨q.name, ?_, q, List.mem_cons_self _ _, rfl, hqk, hqd, ?_⟩
          · simp only [List.cons_append, bindLoop, pyContains, hany, hqd,
              hqk]
          · exact objGet_none_of_any_false hany

/-- When the signature ends in a catch-all keyword slot whose own name is
not supplied, a successful binding contains every supplied parameter with
its supplied value (the `update` of the catch-all branch). -/
theorem bind_catchall_aux (pf : List (String × Json)) :
    ∀ (pre : List Param) (kw : Param) (acc kwargs : List (String × Json)),
    kw.kind = ParamKind.varKeyword →
    kw.default = none →
    objGet pf kw.name = none →
    (∀ q ∈ pre, q.kind ≠ ParamKind.varKeyword) →
    bindLoop (pre ++ [kw]) (.obj pf) acc = .ok (.ok kwargs) →
    ∀ k v, objGet pf k = some v → objGet kwargs k = some v := by
  intro pre
  induction pre with
  | nil =>
    intro kw acc kwargs hkk hkd hkn _ hb k v hv
    have hany : pf.any (fun r => r.1 == kw.name) = false := by
      rw [any_eq_isSome, hkn]; rfl
    simp only [List.nil_append, bindLoop, pyContains, hany, hkd, hkk,
      pyUpdate] at hb
    cases hb
    rw [objGet_foldl_insert, hv]
  | cons q pre ih =>
    intro kw acc kwargs hkk hkd hkn hkw hb k v hv
    have hkw' : ∀ r ∈ pre, r.kind ≠ ParamKind.varKeyword :=
      fun r hr => hkw r (List.mem_cons_of_mem _ hr)
    simp only [List.cons_append, bindLoop, pyContains] at hb
    cases hany : pf.any (fun r => r.1 == q.name) with
    | true =>
      rw [hany] at hb
      simp only [pySubscript] at hb
      cases hg : objGet pf q.name with
      | none => rw [hg] at hb; cases hb
      | some w =>
        rw [hg] at hb
        exact ih kw _ _ hkk hkd hkn hkw' hb k v hv
    | false =>
      rw [hany] at hb
      cases hqd : q.default with
      | some d0 =>
        rw [hqd] at hb
        exact ih kw _ _ hkk hkd hkn hkw' hb k v hv
      | none =>
        rw [hqd] at hb
        cases hqk : q.kind with
        | varPositional =>
          rw [hqk] at hb
          exact ih kw _ _ hkk hkd hkn hkw' hb k v hv
        | varKeyword =>
          exact absurd hqk (hkw q (List.mem_cons_self _ _))
        | normal => rw [hqk] at hb; cases hb

/-! Helper lemmas about the interpreter and the orchestration loop. -/

/-- Every tool-call action produced by the interpreter carries a string tool
name that is a key of the tool mapping. -/
def respValid (tmap : List (String × ToolInfo)) : HandlerResult → Prop
  | .reply _ => True
  | .toolCall tool _ _ =>
    ∃ s, tool = .str s ∧ (mappingKeys tmap).contains s = true

theorem handle_valid (tmap : List (String × ToolInfo)) (raw : RawResponse)
    (resp : HandlerResult)
    (h : handleModelResponse tmap raw = .ok resp) : respValid tmap resp := by
  cases resp with
  | reply t => trivial
  | toolCall tool ps cf =>
    cases raw with
    | error emsg => simp [handleModelResponse] at h
    | ok data =>
      cases data with
      | obj fs =>
        simp only [handleModelResponse, pyGetD] at h
        cases hty : objGetD fs "type" (.str "") with
        | str t =>
          rw [hty] at h
          simp only [pyLower] at h
          by_cases hr : (pyLowerStr t == "reply") = true
          · rw [if_pos hr] at h
            cases h
          · rw [if_neg hr] at h
            by_cases htc : (pyLowerStr t == "tool_call") = true
            · rw [if_pos htc] at h
              cases htool : objGetD fs "tool" (.str "") with
              | str s =>
                rw [htool] at h
                by_cases hs0 : (Json.str s).truthy = false
                · rw [if_pos hs0] at h
                  cases h
                · rw [if_neg hs0] at h
                  simp only [pyIn] at h
                  cases hc : (mappingKeys tmap).contains s with
                  | true =>
                    rw [hc] at h
                    cases h
                    exact ⟨s, rfl, hc⟩
                  | false =>
                    rw [hc] at h
                    cases h
              | null =>
                rw [htool] at h
                simp only [pyIn] at h
                split at h <;> cases h
              | bool b =>
                rw [htool] at h
                simp only [pyIn] at h
                split at h <;> cases h
              | num n =>
                rw [htool] at h
                simp only [pyIn] at h
                split at h <;> cases h
              | arr xs =>
                rw [htool] at h
                simp only [pyIn] at h
                split at h <;> cases h
              | obj fs2 =>
                rw [htool] at h
                simp only [pyIn] at h
                split at h <;> cases h
            · rw [if_neg htc] at h
              cases h
        | null => rw [hty] at h; simp [pyLower] at h
        | bool b => rw [hty] at h; simp [pyLower] at h
        | num n => rw [hty] at h; simp [pyLower] at h
        | arr xs => rw [hty] at h; simp [pyLower] at h
        | obj fs2 => rw [hty] at h; simp [pyLower] at h
      | null => simp [handleModelResponse, pyGetD] at h
      | bool b => simp [handleModelResponse, pyGetD] at h
      | num n => simp [handleModelResponse, pyGetD] at h
      | str s2 => simp [handleModelResponse, pyGetD] at h
      | arr xs => simp [handleModelResponse, pyGetD] at h

/-- One call to the dispatcher with a string tool name that is a mapping
key never raises: the result is `.ok`. -/
theorem executeTool_valid_ok (env : Env) (tmap : List (String × ToolInfo))
    (cache : Cache) (s : String) (params : Json)
    (hs : (mappingKeys tmap).contains s = true) :
    ∃ cache' r, executeTool env tmap cache (.str s) params =
      .ok (cache', r) := by
  simp only [executeTool, hs, if_true]
  exact ⟨_, _, rfl⟩

/-- The loop performs at most `fuel` further dispatcher invocations. -/
theorem loopRun_executed_le (env : Env) (tools : List ToolInfo)
    (tmap : List (String × ToolInfo)) :
    ∀ (fuel : Nat) (resp : HandlerResult) (st : LoopSt),
    (loopRun env tools tmap fuel resp st).st.executed.length ≤
      st.executed.length + fuel := by
  intro fuel
  induction fuel with
  | zero =>
    intro resp st
    simp [loopRun]
  | succ fuel ih =>
    intro resp st
    cases resp with
    | reply t => simp [loopRun]
    | toolCall tool params confirm =>
      simp only [loopRun]
      cases hexec : executeTool env tmap st.cache tool params with
      | error e => simp
      | ok pr =>
        obtain ⟨cache', toolResult⟩ := pr
        simp only
        cases hgen : env.generate (st.modelCalls)
            (buildPrompt (st.ctx ++
              [⟨"assistant", "Called " ++ pyStrTop tool ++
                " with params: " ++ pyStrTop params⟩,
               ⟨"system", pyStrTop toolResult⟩]) tools
              (env.now st.modelCalls)) with
        | error e => simp
        | ok raw =>
          simp only
          cases hh : handleModelResponse tmap raw with
          | error e => simp
          | ok resp' =>
            simp only
            calc (loopRun env tools tmap fuel resp' _).st.executed.length
                ≤ _ := ih resp' _
              _ ≤ st.executed.length + (fuel + 1) := by
                simp
                omega

/-- The loop only appends to the context it is given: exactly two messages
(the synthetic assistant and system entries) per dispatcher invocation. -/
theorem loopRun_frame (env : Env) (tools : List ToolInfo)
    (tmap : List (String × ToolInfo)) :
    ∀ (fuel : Nat) (resp : HandlerResult) (st : LoopSt),
    respValid tmap resp →
    ∃ tail exs,
      (loopRun env tools tmap fuel resp st).st.ctx = st.ctx ++ tail ∧
      (loopRun env tools tmap fuel resp st).st.executed =
        st.executed ++ exs ∧
      tail.length = 2 * exs.length := by
  intro fuel
  induction fuel with
  | zero =>
    intro resp st _
    exact ⟨[], [], by simp [loopRun], by simp [loopRun], rfl⟩
  | succ fuel ih =>
    intro resp st hv
    cases resp with
    | reply t => exact ⟨[], [], by simp [loopRun], by simp [loopRun], rfl⟩
    | toolCall tool params confirm =>
      obtain ⟨s, rfl, hc⟩ := hv
      obtain ⟨cache', r, hexec⟩ :=
        executeTool_valid_ok env tmap st.cache s params hc
      simp only [loopRun, hexec]
      cases hgen : env.generate (st.modelCalls)
          (buildPrompt (st.ctx ++
            [⟨"assistant", "Called " ++ pyStrTop (Json.str s) ++
              " with params: " ++ pyStrTop params⟩,
             ⟨"system", pyStrTop r⟩]) tools
            (env.now st.modelCalls)) with
      | error e =>
        refine ⟨[⟨"assistant", "Called " ++ pyStrTop (Json.str s) ++
          " with params: " ++ pyStrTop params⟩, ⟨"system", pyStrTop r⟩],
          [(Json.str s, params)], by simp, by simp, rfl⟩
      | ok raw =>
        simp only
        cases hh : handleModelResponse tmap raw with
        | error e =>
          refine ⟨[⟨"assistant", "Called " ++ pyStrTop (Json.str s) ++
            " with params: " ++ pyStrTop params⟩, ⟨"system", pyStrTop r⟩],
            [(Json.str s, params)], by simp, by simp, rfl⟩
        | ok resp' =>
          obtain ⟨tail', exs', h1, h2, h3⟩ :=
            ih resp' ⟨st.ctx ++
              [⟨"assistant", "Called " ++ pyStrTop (Json.str s) ++
                " with params: " ++ pyStrTop params⟩,
               ⟨"system", pyStrTop r⟩], cache',
              st.executed ++ [(Json.str s, params)],
              st.modelCalls + 1, st.interpCalls + 1⟩
            (handle_valid tmap raw resp' hh)
          refine ⟨[⟨"assistant", "Called " ++ pyStrTop (Json.str s) ++
            " with params: " ++ pyStrTop params⟩, ⟨"system", pyStrTop r⟩]
              ++ tail',
            [(Json.str s, params)] ++ exs', ?_, ?_, ?_⟩
          · rw [← List.append_assoc]
            exact h1
          · rw [← List.append_assoc]
            exact h2
          · simp only [List.length_append, List.length_cons,
              List.length_nil, h3]
            omega

/-- Unfolding of `process_message` on a non-empty context once the first
model call has returned. -/
theorem processMessage_nonempty (env : Env) (tools : List ToolInfo)
    (cache0 : Cache) (ctx : List Message) (raw : RawResponse)
    (hc : ctx.isEmpty = false)
    (hg : env.generate 0 (buildPrompt ctx tools (env.now 0)) = .ok raw) :
    processMessage env tools cache0 ctx =
      ⟨(match (innerRun env tools (buildMapping tools) raw ctx cache0).res
          with
        | .error e => .ok (.str ("Error processing request: " ++ e.msg))
        | .ok v => .ok v),
       (innerRun env tools (buildMapping tools) raw ctx cache0).st.ctx,
       (innerRun env tools (buildMapping tools) raw ctx cache0).st.executed,
       (innerRun env tools (buildMapping tools) raw ctx cache0).st.modelCalls,
       (innerRun env tools (buildMapping tools) raw ctx cache0).st.interpCalls,
       (innerRun env tools (buildMapping tools) raw ctx cache0).st.cache⟩ := by
  unfold processMessage
  simp only [hc, Bool.false_eq_true, if_false, hg]

/-- Unfolding of `process_message` on a non-empty context when the first
model call raises. -/
theorem processMessage_firstRaise (env : Env) (tools : List ToolInfo)
    (cache0 : Cache) (ctx : List Message) (e : Exn)
    (hc : ctx.isEmpty = false)
    (hg : env.generate 0 (buildPrompt ctx tools (env.now 0)) = .error e) :
    processMessage env tools cache0 ctx =
      ⟨.error e, ctx, [], 1, 0, cache0⟩ := by
  unfold processMessage
  simp only [hc, Bool.false_eq_true, if_false, hg]

/-- Unfolding of `process_message` on the empty context. -/
theorem processMessage_empty (env : Env) (tools : List ToolInfo)
    (cache0 : Cache) (ctx : List Message) (hc : ctx.isEmpty = true) :
    processMessage env tools cache0 ctx =
      ⟨.ok (.str "Error: No context provided"), ctx, [], 0, 0, cache0⟩ := by
  unfold processMessage
  simp only [hc, if_true]

/-! Claim theorems. -/

/-- Claim C1: for every sequence of model outputs, a single call to
`Orchestrator.process_message` performs at most 3 tool-dispatch cycles,
regardless of how many consecutive tool-call actions the model emits; after
the bound is reached no further tool is executed in that call. -/
theorem claim_C1_tool_rounds_bounded (env : Env) (tools : List ToolInfo)
    (cache0 : Cache) (ctx : List Message) :
    (processMessage env tools cache0 ctx).executedTools.length ≤ 3 := by
  by_cases hc : ctx.isEmpty = true
  · rw [processMessage_empty env tools cache0 ctx hc]
    simp
  · have hc' : ctx.isEmpty = false := Bool.not_eq_true _ ▸ eq_false_of_ne_true hc
    cases hg : env.generate 0 (buildPrompt ctx tools (env.now 0)) with
    | error e =>
      rw [processMessage_firstRaise env tools cache0 ctx e hc' hg]
      simp
    | ok raw =>
      rw [processMessage_nonempty env tools cache0 ctx raw hc' hg]
      unfold innerRun
      cases hh : handleModelResponse (buildMapping tools) raw with
      | error e => simp
      | ok resp =>
        have h := loopRun_executed_le env tools (buildMapping tools) 3 resp
          ⟨ctx, cache0, [], 1, 1⟩
        simpa using h

/-- Claim C10: calling `Orchestrator.process_message` with an empty context
returns the string "Error: No context provided" immediately: no model-client
call, no interpreter call and no tool execution happens, and the context and
adapter cache are untouched. -/
theorem claim_C10_empty_context (env : Env) (tools : List ToolInfo)
    (cache0 : Cache) :
    processMessage env tools cache0 [] =
      ⟨.ok (.str "Error: No context provided"), [], [], 0, 0, cache0⟩ :=
  processMessage_empty env tools cache0 [] rfl

/-- A model client whose `generate_response` raises on every call. -/
def envRaise : Env :=
  ⟨fun _ _ => .error ⟨"RuntimeError", "boom"⟩, fun _ => .ok none,
   fun _ => "T"⟩

/-- Claim C2 counterexample: the first `generate_response` call sits before
the `try` block of `process_message` (orchestrator.py lines 100-103), so a
model client that raises on the first call makes `process_message` propagate
the exception instead of returning the
"Error processing request: <message>" string. -/
theorem claim_C2_counterexample :
    (processMessage envRaise [] [] [⟨"user", "hi"⟩]).result =
      .error ⟨"RuntimeError", "boom"⟩ := rfl

/-- Claim C2 (amended): once the first model response has been obtained,
any exception raised anywhere in the rest of the orchestration loop
(interpretation, tool dispatch, later model calls) is caught at the
outermost boundary and the call returns
"Error processing request: <message>"; an exception raised by the first
prompt build or first model call (which the code performs before entering
its `try` block) propagates to the caller. -/
theorem claim_C2_amended (env : Env) (tools : List ToolInfo) (cache0 : Cache)
    (ctx : List Message) (raw : RawResponse) (e : Exn)
    (hg : env.generate 0 (buildPrompt ctx tools (env.now 0)) = .ok raw) :
    (∃ v, (processMessage env tools cache0 ctx).result = .ok v) ∧
    ((innerRun env tools (buildMapping tools) raw ctx cache0).res =
        .error e →
      ctx.isEmpty = false →
      (processMessage env tools cache0 ctx).result =
        .ok (.str ("Error processing request: " ++ e.msg))) := by
  by_cases hc : ctx.isEmpty = true
  · refine ⟨⟨.str "Error: No context provided", ?_⟩, ?_⟩
    · rw [processMessage_empty env tools cache0 ctx hc]
    · intro _ hfalse
      rw [hc] at hfalse
      cases hfalse
  · have hc' : ctx.isEmpty = false :=
      Bool.not_eq_true _ ▸ eq_false_of_ne_true hc
    rw [processMessage_nonempty env tools cache0 ctx raw hc' hg]
    refine ⟨?_, ?_⟩
    · cases hres : (innerRun env tools (buildMapping tools) raw ctx
          cache0).res with
      | error e2 =>
        exact ⟨.str ("Error processing request: " ++ e2.msg),
          by simp [hres]⟩
      | ok v => exact ⟨v, by simp [hres]⟩
    · intro hres _
      simp [hres]

/-- A model client whose first response is the valid-JSON non-object `[]`,
on which the interpreter raises AttributeError inside the `try` block. -/
def envArr : Env :=
  ⟨fun _ _ => .ok (.ok (.arr [])), fun _ => .ok none, fun _ => "T"⟩

/-- Witness for the amended C2: with a first response of `[]` the
interpreter's AttributeError is caught and rendered at the boundary. -/
theorem claim_C2_amended_witness :
    (processMessage envArr [] [] [⟨"user", "hi"⟩]).result =
      .ok (.str ("Error processing request: " ++
        "\x27list\x27 object has no attribute \x27get\x27")) :=
  (claim_C2_amended envArr [] [] [⟨"user", "hi"⟩] (.ok (.arr []))
    ⟨"AttributeError", "\x27list\x27 object has no attribute \x27get\x27"⟩
    rfl).2 rfl rfl

/-- Claim C3 counterexample: on the model output `[]` — a valid-JSON string
that does not parse to an object — `_handle_model_response` raises
AttributeError at `data.get("type", "")` instead of returning a Reply. -/
theorem claim_C3_counterexample :
    handleModelResponse [] (.ok (.arr [])) =
      .error ⟨"AttributeError",
        "\x27list\x27 object has no attribute \x27get\x27"⟩ := rfl

/-- Inputs on which the interpreter cannot raise: parse failures, and JSON
objects whose `type` field (if present) is a string and whose `tool` field
(when the type is a tool call) is falsy or hashable. -/
def handlerSafe : RawResponse → Bool
  | .error _ => true
  | .ok (.obj fs) =>
    match objGet fs "type" with
    | none => true
    | some (.str t) =>
      if pyLowerStr t == "tool_call" then
        match objGet fs "tool" with
        | none => true
        | some v => !v.truthy || v.hashable
      else true
    | some _ => false
  | .ok _ => false

/-- Claim C3 (amended): the interpreter never raises — returning a Reply or
a ToolCall, with every failure mode collapsing into a diagnostic Reply —
for every input string that is not valid JSON, and for every input that
parses to a JSON object whose `type` field (if present) is a string and
whose `tool` field, when the type is a tool call, is falsy or hashable; on
the remaining inputs (valid JSON that is not an object, a non-string `type`,
or an unhashable truthy `tool`) it raises. -/
theorem claim_C3_amended (tmap : List (String × ToolInfo))
    (raw : RawResponse) (h : handlerSafe raw = true) :
    (handleModelResponse tmap raw).isOk = true ∧
    ∀ emsg, handleModelResponse tmap (.error emsg) =
      .ok (.reply (.str ("Invalid JSON response from model: " ++ emsg ++
        ". Please try again."))) := by
  refine ⟨?_, fun emsg => rfl⟩
  cases raw with
  | error emsg => rfl
  | ok data =>
    cases data with
    | obj fs =>
      simp only [handleModelResponse, pyGetD]
      cases hty : objGet fs "type" with
      | none =>
        simp only [objGetD, hty, Option.getD_none, pyLower]
        rfl
      | some tv =>
        cases tv with
        | str t =>
          simp only [objGetD, hty, Option.getD_some, pyLower]
          by_cases hr : (pyLowerStr t == "reply") = true
          · rw [if_pos hr]
            rfl
          · rw [if_neg hr]
            by_cases htc : (pyLowerStr t == "tool_call") = true
            · rw [if_pos htc]
              cases htool : objGet fs "tool" with
              | none =>
                simp only [objGetD, htool, Option.getD_none]
                rfl
              | some v =>
                simp only [objGetD, htool, Option.getD_some]
                by_cases htr : v.truthy = false
                · rw [if_pos htr]
                  rfl
                · rw [if_neg htr]
                  have hhash : v.hashable = true := by
                    simp only [handlerSafe, hty, htc, if_true, htool,
                      Bool.or_eq_true, Bool.not_eq_true'] at h
                    rcases h with h | h
                    · exact absurd h htr
                    · exact h
                  cases v with
                  | str s =>
                    simp only [pyIn]
                    cases (mappingKeys tmap).contains s <;> rfl
                  | null => rfl
                  | bool b => rfl
                  | num n => rfl
                  | arr xs => cases hhash
                  | obj fs2 => cases hhash
            · rw [if_neg htc]
              rfl
        | null =>
          simp only [handlerSafe] at h
          rw [hty] at h
          cases h
        | bool b =>
          simp only [handlerSafe] at h
          rw [hty] at h
          cases h
        | num n =>
          simp only [handlerSafe] at h
          rw [hty] at h
          cases h
        | arr xs =>
          simp only [handlerSafe] at h
          rw [hty] at h
          cases h
        | obj fs2 =>
          simp only [handlerSafe] at h
          rw [hty] at h
          cases h
    | null => cases h
    | bool b => cases h
    | num n => cases h
    | str s => cases h
    | arr xs => cases h

/-- Witness for the amended C3 at two concrete inputs: a well-formed reply
object and a non-JSON string. -/
theorem claim_C3_amended_witness :
    (handleModelResponse [] (.ok (.obj [("type", .str "reply")]))).isOk =
      true ∧
    handleModelResponse [] (.error "Expecting value") =
      .ok (.reply (.str ("Invalid JSON response from model: " ++
        "Expecting value" ++ ". Please try again."))) :=
  ⟨(claim_C3_amended [] (.ok (.obj [("type", .str "reply")])) rfl).1,
   (claim_C3_amended [] (.ok (.obj [("type", .str "reply")])) rfl).2
     "Expecting value"⟩

/-- Claim C5: for every parsed model output object whose `type` field is a
string comparing case-insensitively equal to "reply", the interpreter
returns a Reply whose text is exactly the value of the `text` field,
defaulting to the empty string when `text` is absent. -/
theorem claim_C5_reply_passthrough (tmap : List (String × ToolInfo))
    (fs : List (String × Json)) (t : String)
    (hty : objGet fs "type" = some (.str t))
    (hlow : pyLowerStr t = "reply") :
    handleModelResponse tmap (.ok (.obj fs)) =
      .ok (.reply (objGetD fs "text" (.str ""))) := by
  simp only [handleModelResponse, pyGetD, objGetD, hty, Option.getD_some,
    pyLower, hlow]
  rfl

/-- Witness for C5: `{"type": "Reply", "text": "hi"}` yields Reply "hi". -/
theorem claim_C5_witness :
    handleModelResponse [] (.ok (.obj [("type", .str "Reply"),
        ("text", .str "hi")])) =
      .ok (.reply (.str "hi")) :=
  claim_C5_reply_passthrough [] [("type", .str "Reply"), ("text", .str "hi")]
    "Reply" rfl (by decide)

/-- Claim C4: for every parsed model output object of tool-call type whose
`tool` field is a non-empty string absent from the tool registry, the
interpreter returns a Reply whose text enumerates all registered tool
names, and a `process_message` run receiving that output performs no
dispatcher invocation at all. -/
theorem claim_C4_unknown_tool (tools : List ToolInfo) (name : String)
    (fs : List (String × Json))
    (h1 : (name == "") = false)
    (h2 : (mappingKeys (buildMapping tools)).contains name = false)
    (hty : objGet fs "type" = some (.str "tool_call"))
    (htool : objGet fs "tool" = some (.str name)) :
    handleModelResponse (buildMapping tools) (.ok (.obj fs)) =
      .ok (.reply (.str ("Error: Unknown tool \x27" ++ name ++
        "\x27. Available tools: " ++
        String.intercalate ", " (mappingKeys (buildMapping tools))))) ∧
    ∀ (env : Env) (cache0 : Cache) (ctx : List Message),
      ctx.isEmpty = false →
      env.generate 0 (buildPrompt ctx tools (env.now 0)) =
        .ok (.ok (.obj fs)) →
      (processMessage env tools cache0 ctx).executedTools = [] := by
  have htr : (Json.str name).truthy = true := by
    simp only [Json.truthy, bne, h1]
    rfl
  have hmain : handleModelResponse (buildMapping tools) (.ok (.obj fs)) =
      .ok (.reply (.str ("Error: Unknown tool \x27" ++ name ++
        "\x27. Available tools: " ++
        String.intercalate ", " (mappingKeys (buildMapping tools))))) := by
    simp only [handleModelResponse, pyGetD, objGetD, hty, Option.getD_some,
      pyLower, htool]
    rw [if_neg (by decide), if_pos (by decide),
      if_neg (by simp [htr])]
    simp only [pyIn, h2]
    rfl
  refine ⟨hmain, ?_⟩
  intro env cache0 ctx hctx hg
  rw [processMessage_nonempty env tools cache0 ctx (.ok (.obj fs)) hctx hg]
  simp only [innerRun, hmain]
  simp [loopRun]

/-- Registry, model output and client used to witness C4: one registered
tool, and a model that calls the unregistered tool `ghost.do_thing`. -/
def toolsC4 : List ToolInfo := [⟨"calc.add", "adds", "", false, "calc"⟩]

def fsC4 : List (String × Json) :=
  [("type", .str "tool_call"), ("tool", .str "ghost.do_thing"),
   ("params", .obj [])]

def envC4 : Env :=
  ⟨fun _ _ => .ok (.ok (.obj fsC4)), fun _ => .ok none, fun _ => "T"⟩

/-- Witness for C4 at the spec's own scenario (`ghost.do_thing`). -/
theorem claim_C4_witness :
    handleModelResponse (buildMapping toolsC4) (.ok (.obj fsC4)) =
      .ok (.reply (.str ("Error: Unknown tool \x27ghost.do_thing\x27. " ++
        "Available tools: calc.add"))) ∧
    (processMessage envC4 toolsC4 [] [⟨"user", "hi"⟩]).executedTools = [] :=
  ⟨(claim_C4_unknown_tool toolsC4 "ghost.do_thing" fsC4 rfl rfl rfl rfl).1,
   (claim_C4_unknown_tool toolsC4 "ghost.do_thing" fsC4 rfl rfl rfl rfl).2
     envC4 [] [⟨"user", "hi"⟩] rfl rfl⟩

/-- An operation that returns the keyword binding it received, making the
dispatcher's binding observable. -/
def echoRun : List (String × Json) → Except Exn Json :=
  fun kw => .ok (.obj kw)

/-- An adapter with a single operation `m` declaring only a catch-all
keyword slot named `kw`. -/
def kwAdapter : Adapter := ⟨[("m", ⟨[⟨"kw", .varKeyword, none⟩], echoRun⟩)]⟩

def kwTools : List ToolInfo := [⟨"ad.m", "", "", false, "ad"⟩]

/-- Claim C6 counterexample: for the operation declaring only the catch-all
slot `kw` and params `{"kw": 1, "extra": 2}`, the dispatcher binds the key
`kw` as if it were a declared parameter and drops `"extra"` entirely — the
catch-all does not receive the params not bound to declared names (the
operation observes exactly `{"kw": 1}`). -/
theorem claim_C6_counterexample :
    executeTool envRaise (buildMapping kwTools) [("ad", kwAdapter)]
        (.str "ad.m") (.obj [("kw", .num 1), ("extra", .num 2)]) =
      .ok ([("ad", kwAdapter)], .obj [("kw", .num 1)]) ∧
    objGet [("kw", Json.num 1)] "extra" = none := ⟨rfl, rfl⟩

/-- The spec's round-trip scenario: a tool requiring `a` and `b` with `b`
defaulted. -/
def toolsAB : List ToolInfo := [⟨"calc.add", "", "", false, "calc"⟩]

def tmapAB : List (String × ToolInfo) := buildMapping toolsAB

def adapterAB (bdef : Json) (run : List (String × Json) → Except Exn Json) :
    Adapter :=
  ⟨[("add", ⟨[⟨"a", .normal, none⟩, ⟨"b", .normal, some bdef⟩], run⟩)]⟩

def cacheAB (bdef : Json) (run : List (String × Json) → Except Exn Json) :
    Cache :=
  [("calc", adapterAB bdef run)]

/-- Claim C6 (amended): the dispatcher binds each supplied declared name to
its supplied value and each unsupplied defaulted name to its default; an
unsupplied default-free declared parameter aborts the binding with a
"Missing required parameter" error, without invoking the operation; when
the operation declares a catch-all keyword slot whose own name is not a
params key, the final binding contains every supplied parameter (the ones
not matching declared names are received by the catch-all); if params does
contain a key equal to the catch-all's name, that key is bound like a
declared parameter and the remaining unmatched params are dropped. In
particular, for a tool requiring `a` and `b` with `b` defaulted, supplying
only `a` invokes the operation with `a` and `b`'s default, and omitting `a`
yields the "Missing required parameter: a" error for every operation
body. -/
theorem claim_C6_amended :
    (∀ (sig : List Param) (pf kwargs : List (String × Json)) (p : Param)
       (v : Json),
      bindLoop sig (.obj pf) [] = .ok (.ok kwargs) → p ∈ sig →
      objGet pf p.name = some v → objGet kwargs p.name = some v) ∧
    (∀ (pre : List Param) (p : Param) (post : List Param)
       (pf kwargs : List (String × Json)) (d : Json),
      bindLoop (pre ++ p :: post) (.obj pf) [] = .ok (.ok kwargs) →
      (∀ q ∈ pre, q.kind ≠ ParamKind.varKeyword) →
      (∀ q ∈ pre ++ post, (q.name == p.name) = false) →
      objGet pf p.name = none → p.default = some d →
      objGet kwargs p.name = some d) ∧
    (∀ (pre : List Param) (p : Param) (post : List Param)
       (pf : List (String × Json)),
      p.kind = ParamKind.normal → p.default = none →
      objGet pf p.name = none →
      (∀ q ∈ pre, q.kind ≠ ParamKind.varKeyword) →
      ∃ n, bindLoop (pre ++ p :: post) (.obj pf) [] = .ok (.error n) ∧
        ∃ q ∈ pre ++ p :: post, q.name = n ∧ q.kind = ParamKind.normal ∧
          q.default = none ∧ objGet pf q.name = none) ∧
    (∀ (pre : List Param) (kw : Param)
       (pf kwargs : List (String × Json)),
      kw.kind = ParamKind.varKeyword → kw.default = none →
      objGet pf kw.name = none →
      (∀ q ∈ pre, q.kind ≠ ParamKind.varKeyword) →
      bindLoop (pre ++ [kw]) (.obj pf) [] = .ok (.ok kwargs) →
      ∀ k v, objGet pf k = some v → objGet kwargs k = some v) ∧
    (∀ (bdef va : Json),
      executeTool envRaise tmapAB (cacheAB bdef echoRun) (.str "calc.add")
          (.obj [("a", va)]) =
        .ok (cacheAB bdef echoRun, .obj [("a", va), ("b", bdef)])) ∧
    (∀ (bdef : Json) (run : List (String × Json) → Except Exn Json),
      executeTool envRaise tmapAB (cacheAB bdef run) (.str "calc.add")
          (.obj []) =
        .ok (cacheAB bdef run,
          .obj [("error", .str "Missing required parameter: a")])) := by
  refine ⟨?_, ?_, ?_, ?_, ?_, ?_⟩
  · intro sig pf kwargs p v hb hp hv
    exact bind_supplied_aux pf sig [] kwargs p.name v hb ⟨p, hp, rfl⟩ hv
  · intro pre p post pf kwargs d hb hkw hnd hns hd
    exact bind_default_aux pf pre p post [] kwargs d hb hkw hnd hns hd
  · intro pre p post pf hk hd hns hkw
    exact bind_missing_aux pf pre p post [] hk hd hns hkw
  · intro pre kw pf kwargs hkk hkd hkn hkw hb k v hv
    exact bind_catchall_aux pf pre kw [] kwargs hkk hkd hkn hkw hb k v hv
  · intro bdef va
    rfl
  · intro bdef run
    rfl

/-- Witness for the amended C6: the supplied-name clause at the `{a, b}`
signature with params `{"a": 1}`, and the missing-required clause of the
round-trip scenario. -/
theorem claim_C6_amended_witness :
    objGet [("a", Json.num 1), ("b", Json.num 7)] "a" =
      some (Json.num 1) ∧
    executeTool envRaise tmapAB (cacheAB (Json.num 7) echoRun)
        (.str "calc.add") (.obj []) =
      .ok (cacheAB (Json.num 7) echoRun,
        .obj [("error", .str "Missing required parameter: a")]) :=
  ⟨claim_C6_amended.1
      [⟨"a", .normal, none⟩, ⟨"b", .normal, some (.num 7)⟩]
      [("a", .num 1)] [("a", .num 1), ("b", .num 7)]
      ⟨"a", .normal, none⟩ (.num 1) rfl (List.mem_cons_self _ _) rfl,
   claim_C6_amended.2.2.2.2.2 (Json.num 7) echoRun⟩

/-- Unfolding of the dispatcher on a string tool name. -/
theorem executeTool_str (env : Env) (tmap : List (String × ToolInfo))
    (cache : Cache) (s : String) (params : Json) :
    executeTool env tmap cache (.str s) params =
      (if ((mappingKeys tmap).contains s) = true then
        .ok ((executeTry env cache
            ((mappingGet tmap s).getD dummyTool).adapter s params).1,
          match (executeTry env cache
              ((mappingGet tmap s).getD dummyTool).adapter s params).2 with
          | .error e => fourFieldError e (.str s) params
          | .ok v => v)
      else
        .ok (cache,
          .obj [("error",
            .str ("Unknown tool: " ++ pyStrTop (.str s)))])) := rfl

/-- Claim C7: the dispatcher never lets an exception propagate for any
hashable tool name, and every exception raised while resolving the adapter
(a loader failure or a raising constructor) or while running the operation
is converted into the structured error object carrying the message, the
exception class name, the tool name and the original params. -/
theorem claim_C7_dispatcher_catches :
    (∀ (env : Env) (tmap : List (String × ToolInfo)) (cache : Cache)
       (tool params : Json),
      tool.hashable = true →
      ∃ c r, executeTool env tmap cache tool params = .ok (c, r)) ∧
    (∀ (env : Env) (tmap : List (String × ToolInfo)) (cache : Cache)
       (s : String) (params : Json) (info : ToolInfo) (e : Exn),
      (mappingKeys tmap).contains s = true →
      mappingGet tmap s = some info →
      cacheGet cache info.adapter = none →
      env.loadClass info.adapter = .error e →
      executeTool env tmap cache (.str s) params =
        .ok (cache, fourFieldError e (.str s) params)) ∧
    (∀ (env : Env) (tmap : List (String × ToolInfo)) (cache : Cache)
       (s : String) (params : Json) (info : ToolInfo)
       (cls : AdapterClass) (e : Exn),
      (mappingKeys tmap).contains s = true →
      mappingGet tmap s = some info →
      cacheGet cache info.adapter = none →
      env.loadClass info.adapter = .ok (some cls) →
      cls.construct = .error e →
      executeTool env tmap cache (.str s) params =
        .ok (cache, fourFieldError e (.str s) params)) ∧
    (∀ (env : Env) (tmap : List (String × ToolInfo)) (cache : Cache)
       (s : String) (params : Json) (info : ToolInfo) (adapter : Adapter)
       (op : Operation) (kwargs : List (String × Json)) (e : Exn),
      (mappingKeys tmap).contains s = true →
      mappingGet tmap s = some info →
      cacheGet cache info.adapter = some adapter →
      (adapter.methods.find? (fun p => p.1 == methodNameOf s)).map
          (fun p => p.2) = some op →
      bindLoop op.params params [] = .ok (.ok kwargs) →
      op.run kwargs = .error e →
      executeTool env tmap cache (.str s) params =
        .ok (cache, fourFieldError e (.str s) params)) := by
  refine ⟨?_, ?_, ?_, ?_⟩
  · intro env tmap cache tool params hh
    cases tool with
    | str s =>
      rw [executeTool_str]
      by_cases hcon : ((mappingKeys tmap).contains s) = true
      · rw [if_pos hcon]
        exact ⟨_, _, rfl⟩
      · rw [if_neg hcon]
        exact ⟨_, _, rfl⟩
    | null => exact ⟨_, _, rfl⟩
    | bool b => exact ⟨_, _, rfl⟩
    | num n => exact ⟨_, _, rfl⟩
    | arr xs => cases hh
    | obj fs => cases hh
  · intro env tmap cache s params info e hcon hinfo hnc hl
    have ht : executeTry env cache info.adapter s params =
        (cache, .error e) := by
      unfold executeTry
      simp only [hnc, hl]
    rw [executeTool_str, if_pos hcon]
    simp only [hinfo, Option.getD_some, ht]
  · intro env tmap cache s params info cls e hcon hinfo hnc hl hcl
    have ht : executeTry env cache info.adapter s params =
        (cache, .error e) := by
      unfold executeTry
      simp only [hnc, hl, hcl]
    rw [executeTool_str, if_pos hcon]
    simp only [hinfo, Option.getD_some, ht]
  · intro env tmap cache s params info adapter op kwargs e hcon hinfo hca
      hm hb hrun
    have ht : executeTry env cache info.adapter s params =
        (cache, .error e) := by
      unfold executeTry
      simp only [hca]
      unfold executeWith
      simp only [hm, hb, hrun]
    rw [executeTool_str, if_pos hcon]
    simp only [hinfo, Option.getD_some, ht]

/-- An operation whose body always raises ValueError. -/
def boomAdapter : Adapter :=
  ⟨[("op", ⟨[], fun _ => .error ⟨"ValueError", "bad"⟩⟩)]⟩

def boomTools : List ToolInfo := [⟨"t.op", "", "", false, "t"⟩]

/-- Witness for C7: a raising operation body is returned as the four-field
structured error. -/
theorem claim_C7_witness :
    executeTool envRaise (buildMapping boomTools) [("t", boomAdapter)]
        (.str "t.op") (.obj []) =
      .ok ([("t", boomAdapter)],
        .obj [("error", .str "bad"), ("exception_type", .str "ValueError"),
              ("tool", .str "t.op"), ("params", .obj [])]) :=
  claim_C7_dispatcher_catches.2.2.2 envRaise (buildMapping boomTools)
    [("t", boomAdapter)] "t.op" (.obj []) ⟨"t.op", "", "", false, "t"⟩
    boomAdapter ⟨[], fun _ => .error ⟨"ValueError", "bad"⟩⟩ []
    ⟨"ValueError", "bad"⟩ rfl rfl rfl rfl rfl rfl

/-- A model client that first requests the registered tool `calc.add` with
params `{"a": 1}` and then replies "done". -/
def envC8 : Env :=
  ⟨fun k _ =>
    if k == 0 then
      .ok (.ok (.obj [("type", .str "tool_call"),
        ("tool", .str "calc.add"), ("params", .obj [("a", .num 1)])]))
    else .ok (.ok (.obj [("type", .str "reply"), ("text", .str "done")])),
   fun _ => .ok none, fun _ => "T"⟩

/-- Claim C8 counterexample: after one tool round the caller-supplied
context list has been extended in place with the synthetic assistant and
system messages — it is not unchanged when the call returns. -/
theorem claim_C8_counterexample :
    (processMessage envC8 toolsAB [("calc", adapterAB (.num 7) echoRun)]
        [⟨"user", "hi"⟩]).finalContext =
      [⟨"user", "hi"⟩,
       ⟨"assistant",
        "Called calc.add with params: \x7b\x27a\x27: 1\x7d"⟩,
       ⟨"system", "\x7b\x27a\x27: 1, \x27b\x27: 7\x7d"⟩] ∧
    decide ((processMessage envC8 toolsAB
        [("calc", adapterAB (.num 7) echoRun)]
        [⟨"user", "hi"⟩]).finalContext = [⟨"user", "hi"⟩]) = false :=
  ⟨rfl, by decide⟩

/-- Claim C8 (amended): `process_message` appends the tool-call and
tool-result messages directly to the caller-supplied context sequence,
which is therefore extended in place by exactly two entries per
tool-dispatch cycle (and is unchanged only when no tool was dispatched);
the original entries always remain an unmodified prefix. -/
theorem claim_C8_amended (env : Env) (tools : List ToolInfo)
    (cache0 : Cache) (ctx : List Message) :
    ∃ tail, (processMessage env tools cache0 ctx).finalContext =
        ctx ++ tail ∧
      tail.length =
        2 * (processMessage env tools cache0 ctx).executedTools.length := by
  by_cases hc : ctx.isEmpty = true
  · rw [processMessage_empty env tools cache0 ctx hc]
    exact ⟨[], by simp, rfl⟩
  · have hc' : ctx.isEmpty = false :=
      Bool.not_eq_true _ ▸ eq_false_of_ne_true hc
    cases hg : env.generate 0 (buildPrompt ctx tools (env.now 0)) with
    | error e =>
      rw [processMessage_firstRaise env tools cache0 ctx e hc' hg]
      exact ⟨[], by simp, rfl⟩
    | ok raw =>
      rw [processMessage_nonempty env tools cache0 ctx raw hc' hg]
      unfold innerRun
      cases hh : handleModelResponse (buildMapping tools) raw with
      | error e => exact ⟨[], by simp, rfl⟩
      | ok resp =>
        obtain ⟨tail, exs, h1, h2, h3⟩ :=
          loopRun_frame env tools (buildMapping tools) 3 resp
            ⟨ctx, cache0, [], 1, 1⟩
            (handle_valid (buildMapping tools) raw resp hh)
        refine ⟨tail, ?_, ?_⟩
        · simpa using h1
        · simp only [h3]
          congr 1
          simpa using (congrArg List.length h2).symm

/-- Claim C9: `MemoryDB.register_tool` is idempotent on `full_name`: under
the table's UNIQUE invariant, registering the same full name twice (with
arbitrary other arguments) leaves exactly one row carrying that full name
and returns the same identifier from both calls, the identifier of that
row. -/
theorem claim_C9_register_tool_idempotent (t : ToolsTable) (fn : String)
    (a1 a2 : Int) (n1 d1 e1 n2 d2 e2 : String) (s1 s2 : Bool)
    (hInv : (t.rows.filter (fun r => r.full_name == fn)).length ≤ 1) :
    ((registerTool (registerTool t a1 n1 d1 e1 s1 (some fn)).1
        a2 n2 d2 e2 s2 (some fn)).2 =
      (registerTool t a1 n1 d1 e1 s1 (some fn)).2) ∧
    (registerTool t a1 n1 d1 e1 s1 (some fn)).2.isSome = true ∧
    ((registerTool (registerTool t a1 n1 d1 e1 s1 (some fn)).1
        a2 n2 d2 e2 s2 (some fn)).1.rows.filter
          (fun r => r.full_name == fn)).length = 1 := by
  unfold registerTool
  simp only
  by_cases hex : t.rows.any (fun r => r.full_name == fn) = true
  · rw [if_pos hex]
    have hfind : ∃ r, t.rows.find? (fun r => r.full_name == fn) = some r :=
      Option.isSome_iff_exists.mp (List.find?_isSome.mpr
        (by simpa using List.any_eq_true.mp hex))
    obtain ⟨r, hr⟩ := hfind
    rw [if_pos hex, hr]
    have hlen : (t.rows.filter (fun r => r.full_name == fn)).length = 1 := by
      have hpos : 0 < (t.rows.filter (fun r => r.full_name == fn)).length := by
        obtain ⟨x, hx, hpx⟩ := List.any_eq_true.mp hex
        exact List.length_pos.mpr
          (List.ne_nil_of_mem (List.mem_filter.mpr ⟨hx, hpx⟩))
      omega
    exact ⟨rfl, rfl, hlen⟩
  · rw [if_neg hex]
    have hnew : (t.rows ++
        [(⟨t.seq + 1, a1, n1, fn, d1, e1, s1⟩ : ToolRow)]).any
        (fun r => r.full_name == fn) = true := by
      simp [List.any_append]
    rw [if_pos hnew]
    have hnone : t.rows.find? (fun r => r.full_name == fn) = none := by
      rw [List.find?_eq_none]
      intro x hx hpx
      exact hex (List.any_eq_true.mpr ⟨x, hx, hpx⟩)
    have hfind2 : (t.rows ++
        [(⟨t.seq + 1, a1, n1, fn, d1, e1, s1⟩ : ToolRow)]).find?
        (fun r => r.full_name == fn) =
        some (⟨t.seq + 1, a1, n1, fn, d1, e1, s1⟩ : ToolRow) := by
      rw [List.find?_append, hnone]
      simp
    rw [hfind2]
    have hfnil : t.rows.filter (fun r => r.full_name == fn) = [] := by
      rw [List.filter_eq_nil_iff]
      intro x hx hpx
      exact hex (List.any_eq_true.mpr ⟨x, hx, hpx⟩)
    refine ⟨rfl, rfl, ?_⟩
    rw [List.filter_append, hfnil]
    simp

/-- Witness for C9: registering `calc.add` twice in the empty table. -/
theorem claim_C9_witness :
    ((registerTool (registerTool ⟨[], 0⟩ 1 "add" "d" "e" false
        (some "calc.add")).1 2 "other" "x" "y" true (some "calc.add")).2 =
      (registerTool ⟨[], 0⟩ 1 "add" "d" "e" false (some "calc.add")).2) ∧
    (registerTool ⟨[], 0⟩ 1 "add" "d" "e" false
        (some "calc.add")).2.isSome = true ∧
    ((registerTool (registerTool ⟨[], 0⟩ 1 "add" "d" "e" false
        (some "calc.add")).1 2 "other" "x" "y" true
        (some "calc.add")).1.rows.filter
          (fun r => r.full_name == "calc.add")).length = 1 :=
  claim_C9_register_tool_idempotent ⟨[], 0⟩ "calc.add" 1 2 "add" "d" "e"
    "other" "x" "y" false true (by decide)

end OmniChat
